import Mathlib

set_option autoImplicit false

/-!
Verification development for the msgine SDK core: the transport
(`FetchHttpClient` in `src/http-client.ts`), the payload validator
(`SendSmsSchema` in `src/types.ts`) and the client facade
(`MsGineClient.sendSms` / `sendSmsBatch`).

The TypeScript code is shallowly embedded: JSON values become an inductive
type, a thrown JavaScript value becomes a `ThrownErr`, the injected fetch
implementation becomes a stream of per-attempt outcomes, and the retry
loop of `FetchHttpClient.request` becomes a structurally recursive
function over that stream.
-/

/-- A JSON value, as produced by `response.json()`.  Numbers are modelled
as integers (every number appearing in this code base is integral). -/
inductive JVal where
  | null
  | bool (b : Bool)
  | num (n : Int)
  | str (s : String)
  | arr (xs : List JVal)
  | obj (kvs : List (String × JVal))

/-- Lookup of a key in an object literal, later occurrences overriding
earlier ones, matching the semantics of repeated keys in `JSON.parse`
and in JavaScript object literals. -/
def lookupLast (kvs : List (String × JVal)) (k : String) : Option JVal :=
  match kvs with
  | [] => none
  | (k2, v) :: rest =>
    match lookupLast rest k with
    | some r => some r
    | none => if k2 = k then some v else none

/-- JavaScript property access `v.k` on a JSON value: only objects have
the properties read by this code; on every other value the access yields
`undefined` (here `none`). -/
def jField (v : JVal) (k : String) : Option JVal :=
  match v with
  | .obj kvs => lookupLast kvs k
  | _ => none

/-- JavaScript optional chaining `x?.k`: `undefined` (and `null`, via the
propagation of the accesses used here) short-circuits to `undefined`. -/
def jChain (v : Option JVal) (k : String) : Option JVal :=
  match v with
  | some w => jField w k
  | none => none

/-- The nullish coalescing operator `x ?? y` treats both `undefined`
(`none`) and `null` as missing. -/
def nonNullish (v : Option JVal) : Option JVal :=
  match v with
  | some .null => none
  | x => x

mutual
/-- JavaScript `String(v)` coercion, applied by the `Error` constructor
to a non-string `message` argument.  Only the string case is exercised by
the claims; the other cases follow the JavaScript coercion rules for
flat values. -/
def jvalToString : JVal → String
  | .null => "null"
  | .bool true => "true"
  | .bool false => "false"
  | .num n => toString n
  | .str s => s
  | .arr xs => jvalListToString xs
  | .obj _ => "[object Object]"

/-- `String()` coercion of an array joins the coerced elements with
commas. -/
def jvalListToString : List JVal → String
  | [] => ""
  | [x] => jvalToString x
  | x :: xs => jvalToString x ++ "," ++ jvalListToString xs
end

/-- The `MsGineError` class of `src/types.ts`: message, HTTP status code,
and the optional `code`, `details` and `requestId` taken from the error
envelope (kept as raw JSON values, as the untyped TypeScript does). -/
structure MsGineError where
  message : String
  statusCode : Nat
  code : Option JVal
  details : Option JVal
  requestId : Option JVal

/-- A value thrown by the embedded code: a `MsGineError`, some other
JavaScript `Error` (identified by its `name` and `message`), or a thrown
non-`Error` value. -/
inductive ThrownErr where
  | msgine (e : MsGineError)
  | jsError (name : String) (message : String)
  | nonError

/-- `error.name`, defined exactly when `error instanceof Error`. -/
def errName : ThrownErr → Option String
  | .msgine _ => some "MsGineError"
  | .jsError n _ => some n
  | .nonError => none

/-- `error.message` for `Error` instances. -/
def errMessage : ThrownErr → String
  | .msgine e => e.message
  | .jsError _ m => m
  | .nonError => ""

/-- The response-like object the injected fetch yields: `ok`, `status`,
`statusText`, whether the `content-type` header contains
`application/json`, and the result of calling `json()` (a parsed value,
or the message of the `Error` the parse rejects with). -/
structure HttpResponse where
  ok : Bool
  status : Nat
  statusText : String
  contentTypeJson : Bool
  jsonBody : Except String JVal

/-- `FetchHttpClient.handleResponse` (src/http-client.ts, lines 144-190):
on `ok` JSON responses return the parsed body; on `ok` non-JSON throw
`INVALID_RESPONSE_FORMAT`; on error responses read the JSON error
envelope when possible, falling back to `HTTP <status>: <statusText>`. -/
def handleResponse (r : HttpResponse) : Except ThrownErr JVal :=
  if r.ok then
    if r.contentTypeJson then
      match r.jsonBody with
      | .ok data => .ok data
      | .error m => .error (.jsError "SyntaxError" m)
    else
      .error (.msgine ⟨"Unexpected response format", r.status,
        some (.str "INVALID_RESPONSE_FORMAT"), none, none⟩)
  else
    let fallback := "HTTP " ++ toString r.status ++ ": " ++ r.statusText
    if r.contentTypeJson then
      match r.jsonBody with
      | .ok ed =>
        let errField := jField ed "error"
        let msg :=
          match nonNullish (jChain errField "message") with
          | some v => jvalToString v
          | none => fallback
        .error (.msgine ⟨msg, r.status, jChain errField "code",
          jChain errField "details",
          jChain (jField ed "meta") "requestId"⟩)
      | .error _ => .error (.msgine ⟨fallback, r.status, none, none, none⟩)
    else
      .error (.msgine ⟨fallback, r.status, none, none, none⟩)

/-- The catch block of `FetchHttpClient.executeRequest`
(src/http-client.ts, lines 112-138): an `AbortError` becomes the 408
timeout error; ANY other `Error` instance — including a `MsGineError`
thrown by `handleResponse`, which is awaited inside the same try block —
is wrapped as `Network error: <message>` with status code 0; thrown
non-`Error` values are rethrown unchanged. -/
def executeCatch (e : ThrownErr) : ThrownErr :=
  if errName e = some "AbortError" then
    .msgine ⟨"Request timeout", 408, some (.str "REQUEST_TIMEOUT"), none, none⟩
  else if (errName e).isSome then
    .msgine ⟨"Network error: " ++ errMessage e, 0,
      some (.str "NETWORK_ERROR"), none, none⟩
  else e

/-- One call of the injected fetch implementation either resolves with a
response-like object or rejects with a thrown value. -/
inductive FetchOutcome where
  | resolved (r : HttpResponse)
  | rejected (e : ThrownErr)

/-- `FetchHttpClient.executeRequest` (src/http-client.ts, lines 91-139)
on one fetch outcome.  `handleResponse` is called inside the try block,
so both its thrown errors and a fetch rejection flow through the catch
block (`executeCatch`). -/
def executeRequest (o : FetchOutcome) : Except ThrownErr JVal :=
  match o with
  | .resolved r =>
    match handleResponse r with
    | .ok v => .ok v
    | .error e => .error (executeCatch e)
  | .rejected e => .error (executeCatch e)

/-- `Required<RetryConfig>` (src/types.ts): the retry policy with all
fields present.  Delay-valued fields are rationals, since JavaScript
multiplies them as floating-point numbers. -/
structure RetryConfig where
  maxRetries : Nat
  initialDelay : ℚ
  maxDelay : ℚ
  backoffMultiplier : ℚ
  retryableStatusCodes : List Nat

/-- `DEFAULT_RETRY_CONFIG` (src/http-client.ts, lines 12-18). -/
def DEFAULT_RETRY_CONFIG : RetryConfig :=
  ⟨3, 1000, 10000, 2, [408, 429, 500, 502, 503, 504]⟩

/-- `Math.min` on two (non-NaN) numbers: the smaller argument. -/
def mathMin (a b : ℚ) : ℚ :=
  if a ≤ b then a else b

/-- The backoff computation of the retry loop (src/http-client.ts, lines
73-77): `Math.min(initialDelay * multiplier ^ attempt, maxDelay)`. -/
def backoffDelay (cfg : RetryConfig) (attempt : Nat) : ℚ :=
  mathMin (cfg.initialDelay * cfg.backoffMultiplier ^ attempt) cfg.maxDelay

/-- The no-retry test of the catch clause in `FetchHttpClient.request`
(lines 60-65): throw immediately unless the error is a `MsGineError`
whose status code is in `retryableStatusCodes`. -/
def noRetry (cfg : RetryConfig) (e : ThrownErr) : Bool :=
  match e with
  | .msgine me => !(cfg.retryableStatusCodes.contains me.statusCode)
  | _ => true

/-- How one invocation of `FetchHttpClient.request` ends: a returned
value, a thrown error from inside the loop, the trailing
`throw lastError` after the loop, or exhaustion of the structural fuel
of the embedding (proved unreachable below). -/
inductive ReqOutcome where
  | ok (v : JVal)
  | err (e : ThrownErr)
  | trailing (lastError : Option ThrownErr)
  | fuelOut

/-- The `while (attempt <= maxRetries)` loop of `FetchHttpClient.request`
(src/http-client.ts, lines 47-86), unrolled as recursion on `fuel` (an
upper bound on the number of remaining retries; `requestRun` supplies
`maxRetries`, which suffices, see `requestGo_no_artifacts`).  The
function returns how the call ends together with the number of fetch
calls made and the list of backoff delays slept, in order. -/
def requestGo (cfg : RetryConfig) (o : Nat → FetchOutcome) :
    Nat → Nat → Option ThrownErr → ReqOutcome × Nat × List ℚ
  | fuel, attempt, lastError =>
    if attempt ≤ cfg.maxRetries then
      match executeRequest (o attempt) with
      | .ok v => (.ok v, 1, [])
      | .error e =>
        if noRetry cfg e then (.err e, 1, [])
        else if cfg.maxRetries ≤ attempt then (.err e, 1, [])
        else
          match fuel with
          | 0 => (.fuelOut, 1, [])
          | f + 1 =>
            let r := requestGo cfg o f (attempt + 1) (some e)
            (r.1, r.2.1 + 1, backoffDelay cfg attempt :: r.2.2)
    else (.trailing lastError, 0, [])

/-- `FetchHttpClient.request`: the loop entered at `attempt = 0` with
`lastError` undefined, consuming the fetch outcomes in order. -/
def requestRun (cfg : RetryConfig) (o : Nat → FetchOutcome) :
    ReqOutcome × Nat × List ℚ :=
  requestGo cfg o cfg.maxRetries 0 none

/-- Split the character list of a URL at the first occurrence of the
scheme separator `://`, returning the scheme part and the remainder. -/
def schemeSplit : List Char → Option (List Char × List Char)
  | [] => none
  | ':' :: '/' :: '/' :: rest => some ([], rest)
  | c :: rest => (schemeSplit rest).map (fun pr => (c :: pr.1, pr.2))

/-- The origin (scheme plus host) of an absolute http(s) URL string:
everything up to the first slash after `://`. -/
def urlOrigin (base : String) : String :=
  match schemeSplit base.data with
  | some (scheme, rest) =>
    String.mk (scheme ++ ':' :: '/' :: '/' :: rest.takeWhile (fun c => c ≠ '/'))
  | none => base

/-- The query string `URL.toString` appends after
`url.searchParams.append` calls: empty for no parameters, otherwise
`?k=v&...` in insertion order.  Characters requiring percent-escaping do
not occur in the inputs considered here. -/
def serializeQuery : List (String × String) → String
  | [] => ""
  | ps => "?" ++ String.intercalate "&" (ps.map (fun kv => kv.1 ++ "=" ++ kv.2))

/-- `FetchHttpClient.buildUrl` (src/http-client.ts, lines 195-208):
`new URL(path, baseUrl)` plus appended query parameters.  Every path this
SDK passes starts with a slash, and for such a path-absolute input the
WHATWG URL resolution keeps only the ORIGIN of the base URL: the base
URL's own path (such as the default `/api/v1`) is discarded and replaced
by `path`. -/
def buildUrl (baseUrl path : String) (queryParams : List (String × String)) : String :=
  urlOrigin baseUrl ++ path ++ serializeQuery queryParams

/-- The default headers object of `FetchHttpClient.buildHeaders`
(src/http-client.ts, lines 216-220). -/
def defaultHeaders (apiToken : String) : List (String × String) :=
  [("Authorization", apiToken),
   ("Content-Type", "application/json"),
   ("User-Agent", "@msgine/sdk/1.0.0")]

/-- `FetchHttpClient.buildHeaders` (lines 213-222): the object literal
spread `{ ...defaults, ...customHeaders }`, i.e. the default entries
followed by the caller entries, later entries overriding earlier ones. -/
def buildHeaders (apiToken : String) (custom : List (String × String)) :
    List (String × String) :=
  defaultHeaders apiToken ++ custom

/-- Lookup in a JavaScript-object-like association list where later
entries override earlier ones, mirroring object spread semantics. -/
def headerGet (kvs : List (String × String)) (k : String) : Option String :=
  match kvs with
  | [] => none
  | (k2, v) :: rest =>
    match headerGet rest k with
    | some r => some r
    | none => if k2 = k then some v else none

/-- `SendSmsPayload` (src/types.ts): recipient and message strings. -/
structure SendSmsPayload where
  «to» : String
  message : String
deriving DecidableEq

/-- One issue of a zod validation failure: field path and message. -/
structure ZodIssue where
  path : List String
  message : String
deriving DecidableEq

/-- The issues produced by `SendSmsSchema.safeParse` (src/types.ts,
lines 74-77): `to` must be a string of length at least 1, `message` a
string of length at least 1 and at most 1600; zod collects one issue per
violated rule.  `safeParse` succeeds exactly when this list is empty. -/
def smsIssues (p : SendSmsPayload) : List ZodIssue :=
  (if p.«to».length < 1 then [⟨["to"], "Phone number is required"⟩] else [])
    ++ (if p.message.length < 1 then [⟨["message"], "Message is required"⟩] else [])
    ++ (if 1600 < p.message.length then [⟨["message"], "Message too long"⟩] else [])

/-- How a `MsGineClient.sendSms` call ends: the parsed response body, a
`MsGineValidationError` (message plus zod issues), a thrown transport
error, or one of the transport loop's end states. -/
inductive SendResult where
  | ok (v : JVal)
  | validationErr (message : String) (issues : List ZodIssue)
  | thrown (e : ThrownErr)
  | trailing (lastError : Option ThrownErr)
  | fuelOut

/-- `MsGineClient.sendSms` (the client facade): validate the payload
with `SendSmsSchema.safeParse`; on failure throw `MsGineValidationError`
with zero fetch calls; on success delegate to the transport
(`FetchHttpClient.request` on `POST /messages/sms`).  The result carries
the number of fetch calls made and the backoff delays slept. -/
def sendSms (cfg : RetryConfig) (o : Nat → FetchOutcome) (p : SendSmsPayload) :
    SendResult × Nat × List ℚ :=
  if (smsIssues p).isEmpty then
    let r := requestRun cfg o
    match r.1 with
    | .ok v => (.ok v, r.2)
    | .err e => (.thrown e, r.2)
    | .trailing le => (.trailing le, r.2)
    | .fuelOut => (.fuelOut, r.2)
  else
    (.validationErr "Invalid SMS payload" (smsIssues p), 0, [])

/-- The dispatch `payloads.map((payload) => this.sendSms(payload))` of
`MsGineClient.sendSmsBatch`: item `i` of the batch consumes its own
stream `oi i` of fetch outcomes (the sends are dispatched concurrently
and each owns its attempt counter). -/
def batchSendFrom (cfg : RetryConfig) (oi : Nat → Nat → FetchOutcome) :
    Nat → List SendSmsPayload → List (SendResult × Nat × List ℚ)
  | _, [] => []
  | i, p :: ps => sendSms cfg (oi i) p :: batchSendFrom cfg oi (i + 1) ps

/-- `Promise.all` over the per-item results: all values in order, or a
failing item's result.  Completion order of concurrent sends is not
modelled; the first failing item by index is reported (no claim depends
on which failing item is chosen). -/
def collectAll : List (SendResult × Nat × List ℚ) → Except SendResult (List JVal)
  | [] => .ok []
  | (r, _, _) :: rest =>
    match r with
    | .ok v => (collectAll rest).map (fun vs => v :: vs)
    | bad => .error bad

/-- How a `MsGineClient.sendSmsBatch` call ends. -/
inductive BatchResult where
  | ok (vs : List JVal)
  | validationErr (message : String) (issues : List ZodIssue)
  | itemFailed (r : SendResult)

/-- `MsGineClient.sendSmsBatch`: run `safeParse` on every payload first;
if any fails, throw `MsGineValidationError` with the FIRST failing
payload's issues and make no fetch call; otherwise dispatch one `sendSms`
per payload and collect the results with `Promise.all`.  The second
component is the total number of fetch calls made. -/
def sendSmsBatch (cfg : RetryConfig) (oi : Nat → Nat → FetchOutcome)
    (ps : List SendSmsPayload) : BatchResult × Nat :=
  match ps.find? (fun p => !(smsIssues p).isEmpty) with
  | some p => (.validationErr "Invalid SMS payload in batch" (smsIssues p), 0)
  | none =>
    let results := batchSendFrom cfg oi 0 ps
    let calls := (results.map (fun r => r.2.1)).sum
    match collectAll results with
    | .ok vs => (.ok vs, calls)
    | .error r => (.itemFailed r, calls)

/-! ### Concrete fixtures

Responses taken from the repository's own test suite
(`src/client.test.ts`). -/

/-- The 503 response of the retry test: JSON error envelope with code
`SERVICE_UNAVAILABLE`. -/
def resp503 : HttpResponse :=
  ⟨false, 503, "Service Unavailable", true,
    .ok (.obj [("error", .obj
      [("code", .str "SERVICE_UNAVAILABLE"),
       ("message", .str "Service temporarily unavailable")])])⟩

/-- The JSON `DeliveryResult` body of the successful response in the
retry test. -/
def deliveryJson : JVal :=
  .obj [("id", .str "msg_123"), ("sid", .null), ("channel", .str "sms"),
    ("to", .arr [.str "+256701521269"]), ("from", .str "MsGine"),
    ("content", .str "Hello"), ("status", .str "pending"),
    ("cost", .num 30), ("currency", .str "UGX"),
    ("createdAt", .str "2024-01-01T00:00:00Z")]

/-- A 200 JSON response carrying `deliveryJson`. -/
def resp200 : HttpResponse :=
  ⟨true, 200, "OK", true, .ok deliveryJson⟩

/-- The fetch outcome sequence of the retry test: two 503 responses,
then a 200 response with a `DeliveryResult` body. -/
def outcomes503x2 : Nat → FetchOutcome
  | 0 => .resolved resp503
  | 1 => .resolved resp503
  | _ => .resolved resp200

/-- The 401 response of the API-error test: JSON error envelope with
code `UNAUTHORIZED` and message `Invalid API token`. -/
def resp401 : HttpResponse :=
  ⟨false, 401, "Unauthorized", true,
    .ok (.obj [("error", .obj
      [("code", .str "UNAUTHORIZED"),
       ("message", .str "Invalid API token")])])⟩

/-- Delivery bodies of the two-item batch test. -/
def deliveryJson1 : JVal :=
  .obj [("id", .str "msg_1"), ("sid", .null), ("channel", .str "sms"),
    ("to", .arr [.str "+256701521269"]), ("from", .str "MsGine"),
    ("content", .str "Hello 1"), ("status", .str "pending"),
    ("cost", .num 30), ("currency", .str "UGX"),
    ("createdAt", .str "2024-01-01T00:00:00Z")]

/-- Second delivery body of the batch test. -/
def deliveryJson2 : JVal :=
  .obj [("id", .str "msg_2"), ("sid", .null), ("channel", .str "sms"),
    ("to", .arr [.str "+256701521270"]), ("from", .str "MsGine"),
    ("content", .str "Hello 2"), ("status", .str "pending"),
    ("cost", .num 30), ("currency", .str "UGX"),
    ("createdAt", .str "2024-01-01T00:00:00Z")]

/-- Per-item fetch outcome streams of the batch test: item 0 receives
`deliveryJson1`, every later item `deliveryJson2`. -/
def batchOutcomes : Nat → Nat → FetchOutcome
  | 0, _ => .resolved ⟨true, 200, "OK", true, .ok deliveryJson1⟩
  | _, _ => .resolved ⟨true, 200, "OK", true, .ok deliveryJson2⟩

/-! ### Loop invariants -/

/-- Within its fuel budget, the retry loop always ends in `ok` or `err`,
after at least one and at most `maxRetries + 1 - attempt` fetch calls. -/
theorem requestGo_complete (cfg : RetryConfig) (o : Nat → FetchOutcome) :
    ∀ (fuel attempt : Nat) (le : Option ThrownErr),
      attempt ≤ cfg.maxRetries → cfg.maxRetries - attempt ≤ fuel →
      ((∃ v, (requestGo cfg o fuel attempt le).1 = .ok v) ∨
        (∃ e, (requestGo cfg o fuel attempt le).1 = .err e)) ∧
      1 ≤ (requestGo cfg o fuel attempt le).2.1 ∧
      (requestGo cfg o fuel attempt le).2.1 ≤ cfg.maxRetries + 1 - attempt := by
  intro fuel
  induction fuel with
  | zero =>
    intro attempt le h1 h2
    have hup : cfg.maxRetries ≤ attempt := by omega
    unfold requestGo
    rw [if_pos h1]
    cases hE : executeRequest (o attempt) with
    | ok v =>
      refine ⟨Or.inl ⟨v, rfl⟩, ?_, ?_⟩
      · exact Nat.le_refl 1
      · show 1 ≤ cfg.maxRetries + 1 - attempt
        omega
    | error e =>
      by_cases hn : noRetry cfg e
      · simp only [hn, if_true]
        refine ⟨Or.inr ⟨e, rfl⟩, ?_, ?_⟩
        · exact Nat.le_refl 1
        · show 1 ≤ cfg.maxRetries + 1 - attempt
          omega
      · simp only [hn, if_false, Bool.false_eq_true, if_pos hup]
        refine ⟨Or.inr ⟨e, rfl⟩, ?_, ?_⟩
        · exact Nat.le_refl 1
        · show 1 ≤ cfg.maxRetries + 1 - attempt
          omega
  | succ f ih =>
    intro attempt le h1 h2
    unfold requestGo
    rw [if_pos h1]
    cases hE : executeRequest (o attempt) with
    | ok v =>
      refine ⟨Or.inl ⟨v, rfl⟩, ?_, ?_⟩
      · exact Nat.le_refl 1
      · show 1 ≤ cfg.maxRetries + 1 - attempt
        omega
    | error e =>
      by_cases hn : noRetry cfg e
      · simp only [hn, if_true]
        refine ⟨Or.inr ⟨e, rfl⟩, ?_, ?_⟩
        · exact Nat.le_refl 1
        · show 1 ≤ cfg.maxRetries + 1 - attempt
          omega
      · by_cases hup : cfg.maxRetries ≤ attempt
        · simp only [hn, if_false, Bool.false_eq_true, if_pos hup]
          refine ⟨Or.inr ⟨e, rfl⟩, ?_, ?_⟩
          · exact Nat.le_refl 1
          · show 1 ≤ cfg.maxRetries + 1 - attempt
            omega
        · obtain ⟨ho, hc1, hc2⟩ := ih (attempt + 1) (some e) (by omega) (by omega)
          simp only [hn, if_false, Bool.false_eq_true, if_neg hup]
          refine ⟨ho, ?_, ?_⟩
          · show 1 ≤ (requestGo cfg o f (attempt + 1) (some e)).2.1 + 1
            omega
          · show (requestGo cfg o f (attempt + 1) (some e)).2.1 + 1 ≤
              cfg.maxRetries + 1 - attempt
            omega

/-- The delays slept by the retry loop started at `attempt` are an
initial segment of the backoff schedule `backoffDelay cfg attempt,
backoffDelay cfg (attempt + 1), ...`. -/
theorem requestGo_delays (cfg : RetryConfig) (o : Nat → FetchOutcome) :
    ∀ (fuel attempt : Nat) (le : Option ThrownErr), ∃ k,
      (requestGo cfg o fuel attempt le).2.2 =
        (List.range' attempt k).map (backoffDelay cfg) := by
  intro fuel
  induction fuel with
  | zero =>
    intro attempt le
    refine ⟨0, ?_⟩
    unfold requestGo
    by_cases h1 : attempt ≤ cfg.maxRetries
    · rw [if_pos h1]
      cases hE : executeRequest (o attempt) with
      | ok v => rfl
      | error e =>
        by_cases hn : noRetry cfg e
        · simp only [hn, if_true]
          rfl
        · by_cases hup : cfg.maxRetries ≤ attempt
          · simp only [hn, if_false, Bool.false_eq_true, if_pos hup]
            rfl
          · simp only [hn, if_false, Bool.false_eq_true, if_neg hup]
            rfl
    · rw [if_neg h1]
      rfl
  | succ f ih =>
    intro attempt le
    unfold requestGo
    by_cases h1 : attempt ≤ cfg.maxRetries
    · rw [if_pos h1]
      cases hE : executeRequest (o attempt) with
      | ok v => exact ⟨0, rfl⟩
      | error e =>
        by_cases hn : noRetry cfg e
        · refine ⟨0, ?_⟩
          simp only [hn, if_true]
          rfl
        · by_cases hup : cfg.maxRetries ≤ attempt
          · refine ⟨0, ?_⟩
            simp only [hn, if_false, Bool.false_eq_true, if_pos hup]
            rfl
          · obtain ⟨k, hk⟩ := ih (attempt + 1) (some e)
            refine ⟨k + 1, ?_⟩
            simp only [hn, if_false, Bool.false_eq_true, if_neg hup]
            show backoffDelay cfg attempt ::
                (requestGo cfg o f (attempt + 1) (some e)).2.2 =
              (List.range' attempt (k + 1)).map (backoffDelay cfg)
            rw [hk, List.range'_succ, List.map_cons]
    · rw [if_neg h1]
      exact ⟨0, rfl⟩

/-- `mathMin a b` never exceeds its second argument. -/
theorem mathMin_le_right (a b : ℚ) : mathMin a b ≤ b := by
  unfold mathMin
  split
  · assumption
  · exact le_refl b

/-- Lookup in the concatenation of two header objects: the later object
wins pointwise over the earlier one. -/
theorem headerGet_append (a b : List (String × String)) (k : String) :
    headerGet (a ++ b) k =
      match headerGet b k with
      | some v => some v
      | none => headerGet a k := by
  induction a with
  | nil =>
    cases h : headerGet b k <;> simp [headerGet, h]
  | cons kv rest ih =>
    have hstep : headerGet ((kv :: rest) ++ b) k =
        match headerGet (rest ++ b) k with
        | some r => some r
        | none => if kv.1 = k then some kv.2 else none := rfl
    rw [hstep, ih]
    cases h : headerGet b k
    · simp only [h]
      rfl
    · simp only [h]

/-- If every item result of a dispatched batch is `ok`, `Promise.all`
collects exactly the item values, in order. -/
theorem collectAll_ok (xs : List (SendResult × Nat × List ℚ))
    (h : ∀ x ∈ xs, ∃ v, x.1 = SendResult.ok v) :
    ∃ vs, collectAll xs = .ok vs ∧
      xs.map (fun r => r.1) = vs.map SendResult.ok := by
  induction xs with
  | nil => exact ⟨[], rfl, rfl⟩
  | cons x rest ih =>
    obtain ⟨v, hv⟩ := h x (by simp)
    obtain ⟨vs, hc, hmap⟩ := ih (fun y hy => h y (by simp [hy]))
    refine ⟨v :: vs, ?_, ?_⟩
    · have hunfold : collectAll (x :: rest) =
          match x.1 with
          | SendResult.ok w => (collectAll rest).map (fun ws => w :: ws)
          | bad => Except.error bad := rfl
      rw [hunfold, hv, hc]
      rfl
    · simp only [List.map_cons, hv, hmap]

/-- A batch dispatch produces one result per payload. -/
theorem batchSendFrom_length (cfg : RetryConfig) (oi : Nat → Nat → FetchOutcome) :
    ∀ (ps : List SendSmsPayload) (i : Nat),
      (batchSendFrom cfg oi i ps).length = ps.length := by
  intro ps
  induction ps with
  | nil => intro i; rfl
  | cons p rest ih => intro i; simp [batchSendFrom, ih]

/-- The `j`-th result of a batch dispatch started at stream index `i` is
the send of the `j`-th payload on stream `i + j`. -/
theorem batchSendFrom_get (cfg : RetryConfig) (oi : Nat → Nat → FetchOutcome) :
    ∀ (ps : List SendSmsPayload) (i j : Nat) (hj : j < ps.length)
      (hj2 : j < (batchSendFrom cfg oi i ps).length),
      (batchSendFrom cfg oi i ps).get ⟨j, hj2⟩ =
        sendSms cfg (oi (i + j)) (ps.get ⟨j, hj⟩) := by
  intro ps
  induction ps with
  | nil => intro i j hj hj2; exact absurd hj (by simp)
  | cons p rest ih =>
    intro i j hj hj2
    cases j with
    | zero => simp [batchSendFrom]
    | succ j =>
      have hj' : j < rest.length := by simpa using hj
      have hj2' : j < (batchSendFrom cfg oi (i + 1) rest).length := by
        rw [batchSendFrom_length]
        exact hj'
      have hrec := ih (i + 1) j hj' hj2'
      simp only [batchSendFrom, List.get_cons_succ, hrec]
      have harith : i + 1 + j = i + (j + 1) := by omega
      rw [harith]

/-! ### Claims -/

/-- C1: the claim states that the issued URL is baseUrl concatenated with
the request path, so that the default baseUrl plus `/messages/sms` yields
the URL path `/api/v1/messages/sms`.  The code calls
`new URL(path, baseUrl)`, which for the path-absolute input
`/messages/sms` discards the base URL's `/api/v1` path: the issued URL is
`https://api.msgine.net/messages/sms`, not the concatenation
`https://api.msgine.net/api/v1/messages/sms`.  This also contradicts the
repository's own custom-base-URL test. -/
theorem msgine_C1_url_base_path_dropped :
    buildUrl "https://api.msgine.net/api/v1" "/messages/sms" [] =
      "https://api.msgine.net/messages/sms" ∧
    buildUrl "https://api.msgine.net/api/v1" "/messages/sms" [] ≠
      "https://api.msgine.net/api/v1/messages/sms" :=
  ⟨rfl, by decide⟩

/-- C2: the claim states that on the response sequence [503, 503, 200]
with maxRetries ≥ 2, `sendSms` succeeds after exactly 3 calls.  In the
code, the 503 `MsGineError` thrown by `handleResponse` is caught by the
catch-all in `executeRequest` and rewrapped as a `NETWORK_ERROR` with
status code 0, which is not retryable: `sendSms` fails after exactly one
call and an empty delay list, contradicting the repository's own retry
test. -/
theorem msgine_C2_retry_never_happens_on_503 :
    sendSms DEFAULT_RETRY_CONFIG outcomes503x2 ⟨"+256701521269", "Hello"⟩ =
      (.thrown (.msgine ⟨"Network error: Service temporarily unavailable", 0,
        some (.str "NETWORK_ERROR"), none, none⟩), 1, []) := rfl

/-- C3: the delays slept by the retry loop follow the schedule
`backoffDelay cfg n = min(initialDelay * multiplier ^ n, maxDelay)`
(the n-th slept delay is the schedule's n-th entry), the schedule never
exceeds `maxDelay`, and with the default policy (initialDelay 1000,
multiplier 2, maxDelay 10000) the first six entries are
1000, 2000, 4000, 8000, 10000, 10000. -/
theorem msgine_C3_backoff_schedule (cfg : RetryConfig) (o : Nat → FetchOutcome) :
    (∃ k, (requestRun cfg o).2.2 = (List.range k).map (backoffDelay cfg)) ∧
    (∀ n, backoffDelay cfg n ≤ cfg.maxDelay) ∧
    (List.range 6).map (backoffDelay DEFAULT_RETRY_CONFIG) =
      [1000, 2000, 4000, 8000, 10000, 10000] := by
  refine ⟨?_, ?_, ?_⟩
  · obtain ⟨k, hk⟩ := requestGo_delays cfg o cfg.maxRetries 0 none
    refine ⟨k, ?_⟩
    rw [List.range_eq_range']
    exact hk
  · intro n
    exact mathMin_le_right _ _
  · have h6 : List.range 6 = [0, 1, 2, 3, 4, 5] := by decide
    rw [h6]
    simp [backoffDelay, mathMin, DEFAULT_RETRY_CONFIG]
    norm_num

/-- C4: a payload with an empty recipient, an empty message, or a message
longer than 1600 characters fails `sendSms` with the
`MsGineValidationError` carrying the zod issues, and no fetch call is
made. -/
theorem msgine_C4_invalid_payload_no_network (cfg : RetryConfig)
    (o : Nat → FetchOutcome) (p : SendSmsPayload)
    (h : p.«to» = "" ∨ p.message = "" ∨ 1600 < p.message.length) :
    sendSms cfg o p = (.validationErr "Invalid SMS payload" (smsIssues p), 0, []) := by
  have hne : smsIssues p ≠ [] := by
    rcases h with h | h | h
    · simp [smsIssues, h]
    · simp [smsIssues, h]
    · simp [smsIssues, h]
  have hb : (smsIssues p).isEmpty = false := by
    cases hsi : smsIssues p with
    | nil => exact absurd hsi hne
    | cons a l => rfl
  simp [sendSms, hb]

/-- C4 witness: the empty-recipient payload of the validation test. -/
theorem msgine_C4_witness :
    sendSms DEFAULT_RETRY_CONFIG (fun _ => .rejected .nonError) ⟨"", "Hello"⟩ =
      (.validationErr "Invalid SMS payload"
        [⟨["to"], "Phone number is required"⟩], 0, []) :=
  msgine_C4_invalid_payload_no_network DEFAULT_RETRY_CONFIG
    (fun _ => .rejected .nonError) ⟨"", "Hello"⟩ (Or.inl rfl)

/-- C5: if any payload of a batch fails validation, `sendSmsBatch` fails
with the `MsGineValidationError` of a failing payload (the first one, as
`find?` picks it) and makes zero fetch calls, wherever the invalid
payload sits. -/
theorem msgine_C5_batch_invalid_no_network (cfg : RetryConfig)
    (oi : Nat → Nat → FetchOutcome) (ps : List SendSmsPayload)
    (h : ∃ p ∈ ps, smsIssues p ≠ []) :
    (sendSmsBatch cfg oi ps).2 = 0 ∧
    ∃ p, p ∈ ps ∧ smsIssues p ≠ [] ∧
      (sendSmsBatch cfg oi ps).1 =
        .validationErr "Invalid SMS payload in batch" (smsIssues p) := by
  have hsome : (ps.find? (fun p => !(smsIssues p).isEmpty)).isSome := by
    rw [List.find?_isSome]
    obtain ⟨p, hp, hne⟩ := h
    refine ⟨p, hp, ?_⟩
    cases hsi : smsIssues p with
    | nil => exact absurd hsi hne
    | cons a l => simp [hsi]
  obtain ⟨q, hq⟩ := Option.isSome_iff_exists.mp hsome
  have hmem := List.mem_of_find?_eq_some hq
  have hpred := List.find?_some hq
  have hqne : smsIssues q ≠ [] := by
    intro hnil
    simp [hnil] at hpred
  unfold sendSmsBatch
  rw [hq]
  exact ⟨rfl, q, hmem, hqne, rfl⟩

/-- C5 witness: the batch of the repository's batch-validation test (a
valid payload followed by an empty-recipient one). -/
theorem msgine_C5_witness :
    (sendSmsBatch DEFAULT_RETRY_CONFIG batchOutcomes
      [⟨"+256701521269", "Valid"⟩, ⟨"", "Invalid"⟩]).2 = 0 ∧
    ∃ p, p ∈ [(⟨"+256701521269", "Valid"⟩ : SendSmsPayload), ⟨"", "Invalid"⟩] ∧
      smsIssues p ≠ [] ∧
      (sendSmsBatch DEFAULT_RETRY_CONFIG batchOutcomes
        [⟨"+256701521269", "Valid"⟩, ⟨"", "Invalid"⟩]).1 =
        .validationErr "Invalid SMS payload in batch" (smsIssues p) :=
  msgine_C5_batch_invalid_no_network DEFAULT_RETRY_CONFIG batchOutcomes
    [⟨"+256701521269", "Valid"⟩, ⟨"", "Invalid"⟩]
    ⟨⟨"", "Invalid"⟩, by decide, by decide⟩

/-- C6: the claim states that a non-retryable status (e.g. 401) causes
exactly one fetch call and an immediately propagated `ApiError` carrying
that HTTP status code with the envelope's message, code, details and
requestId.  Exactly one call is indeed made and no retry happens, but the
error that propagates is NOT the 401 `ApiError`: the `MsGineError`
thrown by `handleResponse` is rewrapped by the catch-all of
`executeRequest` into statusCode 0 / `NETWORK_ERROR`, contradicting the
repository's own API-error test, which expects statusCode 401 and code
`UNAUTHORIZED`. -/
theorem msgine_C6_non_retryable_401_rewrapped :
    requestRun DEFAULT_RETRY_CONFIG (fun _ => .resolved resp401) =
      (.err (.msgine ⟨"Network error: Invalid API token", 0,
        some (.str "NETWORK_ERROR"), none, none⟩), 1, []) := rfl

/-- C7: under the default policy, a fetch rejection with a non-abort
`Error` produces `MsGineError` with message `Network error: <cause>`,
statusCode 0 and code `NETWORK_ERROR`; 0 is not in the default retryable
set, so exactly one fetch call is made and no delay is slept. -/
theorem msgine_C7_network_error_not_retried (name msg : String)
    (o : Nat → FetchOutcome) (hname : name ≠ "AbortError")
    (h0 : o 0 = .rejected (.jsError name msg)) :
    requestRun DEFAULT_RETRY_CONFIG o =
      (.err (.msgine ⟨"Network error: " ++ msg, 0,
        some (.str "NETWORK_ERROR"), none, none⟩), 1, []) := by
  have hexec : executeRequest (o 0) =
      .error (.msgine ⟨"Network error: " ++ msg, 0,
        some (.str "NETWORK_ERROR"), none, none⟩) := by
    rw [h0]
    simp [executeRequest, executeCatch, errName, errMessage, hname]
  unfold requestRun requestGo
  simp [DEFAULT_RETRY_CONFIG, hexec, noRetry]

/-- C7 witness: a `TypeError`-style fetch failure, as thrown by a DNS or
connection error. -/
theorem msgine_C7_witness :
    requestRun DEFAULT_RETRY_CONFIG
      (fun _ => .rejected (.jsError "TypeError" "fetch failed")) =
      (.err (.msgine ⟨"Network error: fetch failed", 0,
        some (.str "NETWORK_ERROR"), none, none⟩), 1, []) :=
  msgine_C7_network_error_not_retried "TypeError" "fetch failed"
    (fun _ => .rejected (.jsError "TypeError" "fetch failed")) (by decide) rfl

/-- C8: the sent headers are the defaults (Authorization, Content-Type,
User-Agent) overridden pointwise by the caller headers: for every header
name, the caller value wins when present (including Authorization), and
otherwise the default value (when any) is used. -/
theorem msgine_C8_header_merge (apiToken : String)
    (custom : List (String × String)) (k : String) :
    headerGet (buildHeaders apiToken custom) k =
      match headerGet custom k with
      | some v => some v
      | none => headerGet (defaultHeaders apiToken) k :=
  headerGet_append (defaultHeaders apiToken) custom k

/-- C9: when every payload is valid and every per-item send succeeds,
`sendSmsBatch` returns one value per payload in input order: the j-th
returned value is the one produced by sending the j-th payload. -/
theorem msgine_C9_batch_preserves_order (cfg : RetryConfig)
    (oi : Nat → Nat → FetchOutcome) (ps : List SendSmsPayload)
    (hvalid : ∀ p ∈ ps, smsIssues p = [])
    (hsucc : ∀ x ∈ batchSendFrom cfg oi 0 ps, ∃ v, x.1 = SendResult.ok v) :
    ∃ vs, (sendSmsBatch cfg oi ps).1 = .ok vs ∧ vs.length = ps.length ∧
      ∀ (j : Nat) (hj : j < ps.length) (hv : j < vs.length),
        (sendSms cfg (oi j) (ps.get ⟨j, hj⟩)).1 = SendResult.ok (vs.get ⟨j, hv⟩) := by
  have hfind : ps.find? (fun p => !(smsIssues p).isEmpty) = none := by
    rw [List.find?_eq_none]
    intro p hp
    simp [hvalid p hp]
  obtain ⟨vs, hc, hmap⟩ := collectAll_ok _ hsucc
  have hlen : vs.length = ps.length := by
    have hlm := congrArg List.length hmap
    simp only [List.length_map] at hlm
    rw [batchSendFrom_length] at hlm
    omega
  refine ⟨vs, ?_, hlen, ?_⟩
  · unfold sendSmsBatch
    rw [hfind]
    simp only [hc]
  · intro j hj hv
    have hj2 : j < (batchSendFrom cfg oi 0 ps).length := by
      rw [batchSendFrom_length]
      exact hj
    have hg := batchSendFrom_get cfg oi ps 0 j hj hj2
    have hpt := congrArg (fun l => l[j]?) hmap
    simp only [List.getElem?_map] at hpt
    rw [List.getElem?_eq_getElem hj2, List.getElem?_eq_getElem hv] at hpt
    simp only [Option.map_some'] at hpt
    have hbg : (batchSendFrom cfg oi 0 ps)[j] =
        sendSms cfg (oi j) (ps.get ⟨j, hj⟩) := by
      have hge : (batchSendFrom cfg oi 0 ps)[j] =
          (batchSendFrom cfg oi 0 ps).get ⟨j, hj2⟩ := rfl
      rw [hge, hg, Nat.zero_add]
    rw [hbg] at hpt
    have hvg : vs[j] = vs.get ⟨j, hv⟩ := rfl
    rw [hvg] at hpt
    exact Option.some.inj hpt

/-- C9 witness: the two-payload batch of the repository's batch test,
with the two mocked 200 responses; both hypotheses are discharged at the
concrete input. -/
theorem msgine_C9_witness :
    ∃ vs, (sendSmsBatch DEFAULT_RETRY_CONFIG batchOutcomes
        [⟨"+256701521269", "Hello 1"⟩, ⟨"+256701521270", "Hello 2"⟩]).1 = .ok vs ∧
      vs.length =
        ([(⟨"+256701521269", "Hello 1"⟩ : SendSmsPayload),
          ⟨"+256701521270", "Hello 2"⟩] : List SendSmsPayload).length ∧
      ∀ (j : Nat)
        (hj : j < ([(⟨"+256701521269", "Hello 1"⟩ : SendSmsPayload),
          ⟨"+256701521270", "Hello 2"⟩] : List SendSmsPayload).length)
        (hv : j < vs.length),
        (sendSms DEFAULT_RETRY_CONFIG (batchOutcomes j)
          (([(⟨"+256701521269", "Hello 1"⟩ : SendSmsPayload),
            ⟨"+256701521270", "Hello 2"⟩] : List SendSmsPayload).get ⟨j, hj⟩)).1 =
          SendResult.ok (vs.get ⟨j, hv⟩) := by
  refine msgine_C9_batch_preserves_order DEFAULT_RETRY_CONFIG batchOutcomes
    [⟨"+256701521269", "Hello 1"⟩, ⟨"+256701521270", "Hello 2"⟩]
    (by decide) ?_
  intro x hx
  simp only [batchSendFrom, List.mem_cons, List.not_mem_nil, or_false] at hx
  rcases hx with hx | hx
  · refine ⟨deliveryJson1, ?_⟩
    rw [hx]
    rfl
  · refine ⟨deliveryJson2, ?_⟩
    rw [hx]
    rfl

/-- C10: for every retry configuration and every outcome stream, the
request loop ends with a returned value or a thrown error from inside
the loop, after at least one and at most maxRetries + 1 fetch calls; the
trailing `throw lastError` after the while loop is never reached. -/
theorem msgine_C10_loop_terminates (cfg : RetryConfig) (o : Nat → FetchOutcome) :
    ((∃ v, (requestRun cfg o).1 = .ok v) ∨ (∃ e, (requestRun cfg o).1 = .err e)) ∧
    1 ≤ (requestRun cfg o).2.1 ∧ (requestRun cfg o).2.1 ≤ cfg.maxRetries + 1 ∧
    (∀ le, (requestRun cfg o).1 ≠ ReqOutcome.trailing le) := by
  obtain ⟨ho, h1, h2⟩ :=
    requestGo_complete cfg o cfg.maxRetries 0 none (Nat.zero_le _) (by omega)
  unfold requestRun
  refine ⟨ho, h1, by omega, ?_⟩
  intro le hle
  rcases ho with ⟨v, hv⟩ | ⟨e, he⟩
  · rw [hle] at hv
    exact ReqOutcome.noConfusion hv
  · rw [hle] at he
    exact ReqOutcome.noConfusion he
